import Mathlib

/-
Verification development for the ipset "hash:net,port,net" type of the dpvs
repository (src/ipset/ipset_hash_netportnet.c).

Shallow embedding conventions:
* Machine integers are modelled as Nat; truncation is explicit (% 2^32,
  % 65536, % 256) exactly where the C arithmetic can overflow.
* Byte-order conversions (htonl/htons/ntohl) are byte-reversal bijections;
  the model keeps every address and port in host order throughout.  All
  claims in scope are about equality, masking and dependence of the key
  fields, which are invariant under that bijection.
* The element struct is modelled as a record of its named fields.  The C
  key region is the byte prefix [0, offsetof(elem_t, comment)); the three
  padding bytes inside it are always zero (every element originates from a
  memset-zeroed stack object), so byte equality of the prefix is exactly
  field equality of (ip1, cidr1, ip2, cidr2, proto, port).
* Code of this repository that is not under src/ (the generic hash-table
  core ipset_hash.c, the pfxlen.h range helpers, mbuf_header_pointer, the
  EDPVS error codes) is modelled from the spec; each such definition
  carries a doc comment starting with "Modelled from the spec:".
-/

/-- Modelled from the spec: EDPVS_OK, success (conf/common.h is not in src/;
the exact numeric values of the error constants are immaterial, they are
distinct and only EDPVS_OK is zero). -/
def EDPVS_OK : Int := 0

/-- Modelled from the spec: EDPVS_INVAL, the FamilyMismatch / invalid-argument
error returned when a request's family disagrees with the set's family. -/
def EDPVS_INVAL : Int := -3

/-- Modelled from the spec: EDPVS_EXIST, the KeyCollision error (Add collides
with an existing entry and replace is not permitted). -/
def EDPVS_EXIST : Int := -8

/-- Modelled from the spec: EDPVS_NOTEXIST, the NotFound error (Delete target
absent). -/
def EDPVS_NOTEXIST : Int := -7

/-- AF_INET, the IPv4 address family constant. -/
def AF_INET : Nat := 2

/-- AF_INET6, the IPv6 address family constant. -/
def AF_INET6 : Nat := 10

/-- elem_t (struct hash_netportnet_elem): the stored element record.
Addresses and the port are kept in host order (see the header comment). -/
structure elem_t where
  ip1 : Nat
  cidr1 : Nat
  ip2 : Nat
  cidr2 : Nat
  proto : Nat
  port : Nat
  comment : String
  nomatch_flag : Bool
deriving DecidableEq

/-- The all-zero element produced by memset(&e, 0, sizeof(e)). -/
def zeroElem : elem_t :=
  { ip1 := 0, cidr1 := 0, ip2 := 0, cidr2 := 0, proto := 0, port := 0,
    comment := "", nomatch_flag := false }

/-- The key region of an element: the byte prefix up to offsetof(elem_t,
comment), i.e. the fields (ip1, cidr1, ip2, cidr2, proto, port).  Comment and
Nomatch lie outside it. -/
def keyRegion (e : elem_t) : Nat × Nat × Nat × Nat × Nat × Nat :=
  (e.ip1, e.cidr1, e.ip2, e.cidr2, e.proto, e.port)

/-- The tri-valued result of the type variant's compare function. -/
inductive CompareResult where
  | INEQUAL
  | EQUAL_REJECT
  | EQUAL_ACCEPT
deriving DecidableEq

/-- hash_netportnet_data_equal: memcmp over the key region; on key equality
the stored element's (second argument's) nomatch flag selects
COMPARE_EQUAL_REJECT versus COMPARE_EQUAL_ACCEPT. -/
def hash_netportnet_data_equal (e1 e2 : elem_t) : CompareResult :=
  if keyRegion e1 ≠ keyRegion e2 then CompareResult.INEQUAL
  else if e2.nomatch_flag then CompareResult.EQUAL_REJECT
  else CompareResult.EQUAL_ACCEPT

/-- hash_netportnet_hashkey4: the IPv4 hash.  uint32 arithmetic is modelled
by % 2^32; (port << 16) | (cidr1 << 8) | cidr2 combines disjoint bit fields,
hence equals port * 2^16 + cidr1 * 2^8 + cidr2 on the truncated fields.  The
len parameter is unused, as in the C code. -/
def hash_netportnet_hashkey4 (data : elem_t) (len : Nat) (mask : Nat) : Nat :=
  ((data.ip1 * 31 + data.ip2 * 31 +
    ((data.port % 65536) * 65536 + (data.cidr1 % 256) * 256 + data.cidr2 % 256)) % 2 ^ 32) &&& mask

/-- sizeof(elem_t) on the x86-64 ABI the code targets: ip1 at 0 (16 bytes,
union inet_addr), cidr1 at 16, 3 padding bytes, ip2 at 20, cidr2 at 36,
proto at 37, port at 38, comment at 40 (IPSET_MAXCOMLEN = 32 bytes),
nomatch at 72, tail padding to alignment 4: 76 bytes. -/
def elem_dsize : Nat := 76

/-- offsetof(elem_t, comment): the key-region length in bytes. -/
def elem_hash_len : Nat := 40

/-- The set object: family, comment-support flag, and the fields fixed by
hash_netportnet_create.  The bound type variant is recorded as the flag
variantIsV4 (hash_netportnet_variant4 versus hash_netportnet_variant6); the
owned hash table is modelled by the list of stored elements. -/
structure IpSet where
  family : Nat
  comment : Bool
  net_count : Nat
  dsize : Nat
  hash_len : Nat
  variantIsV4 : Bool
  elems : List elem_t
deriving DecidableEq

/-- The tri-state classification of a Test. -/
inductive TestRes where
  | NOT_FOUND
  | ACCEPT
  | REJECT
deriving DecidableEq

/-- Modelled from the spec: the integer encoding of the tri-state Test result
returned through the int-valued adt entry points (the three outcomes are
distinguishable; only NOT_FOUND is zero). -/
def testResCode : TestRes → Int
  | TestRes.NOT_FOUND => 0
  | TestRes.ACCEPT => 1
  | TestRes.REJECT => 2

/-- Mask an address to its top c bits out of w (address AND prefix mask). -/
def maskAddr (a c w : Nat) : Nat := a / 2 ^ (w - c) * 2 ^ (w - c)

/-- Modelled from the spec: the type variant's netmask capability
(hash_data_netmask4 / hash_data_netmask6, ipset_hash.c is not in src/):
masks a probe element down to the given prefix-length pair before lookup. -/
def hash_data_netmask (e : elem_t) (c1 c2 w : Nat) : elem_t :=
  { e with ip1 := maskAddr e.ip1 c1 w, cidr1 := c1,
           ip2 := maskAddr e.ip2 c2 w, cidr2 := c2 }

/-- Specificity key used to order prefix-length pairs, lexicographic on
(cidr1, cidr2); cidrs are at most 128. -/
def pairKey (p : Nat × Nat) : Nat := p.1 * 129 + p.2

/-- Insertion into a descending-by-pairKey sorted list. -/
def insertDesc (x : Nat × Nat) : List (Nat × Nat) → List (Nat × Nat)
  | [] => [x]
  | y :: ys => if pairKey y ≤ pairKey x then x :: y :: ys else y :: insertDesc x ys

/-- Sort prefix-length pairs from most specific to least specific. -/
def sortDesc (l : List (Nat × Nat)) : List (Nat × Nat) := l.foldr insertDesc []

/-- Modelled from the spec: the set's mask histogram — the distinct
(cidr1, cidr2) pairs present among stored elements, ordered from most
specific to least specific. -/
def histogram (set : IpSet) : List (Nat × Nat) :=
  sortDesc ((set.elems.map (fun e => (e.cidr1, e.cidr2))).dedup)

/-- Modelled from the spec: the hash table core's Test — locate by exact key
equality via the type variant's compare; a found nomatch entry yields REJECT,
a found plain entry ACCEPT, absence none. -/
def tableProbe (set : IpSet) (probe : elem_t) : Option TestRes :=
  match set.elems.find? (fun x =>
      match hash_netportnet_data_equal probe x with
      | CompareResult.INEQUAL => false
      | _ => true) with
  | some x => some (if x.nomatch_flag then TestRes.REJECT else TestRes.ACCEPT)
  | none => none

/-- Modelled from the spec: the multi-length lookup iteration — walk the
candidate prefix-length pairs in order, masking the probe to each pair; the
first REJECT wins immediately, absent a REJECT the first ACCEPT is returned,
otherwise NOT_FOUND. -/
def lookupPairs (set : IpSet) (e : elem_t) (w : Nat) : List (Nat × Nat) → TestRes
  | [] => TestRes.NOT_FOUND
  | p :: rest =>
    match tableProbe set (hash_data_netmask e p.1 p.2 w) with
    | some r => r
    | none => lookupPairs set e w rest

/-- Modelled from the spec: hash_test, the generic multi-length lookup over
the set's mask histogram; the address width comes from the bound family
variant. -/
def hash_test (set : IpSet) (e : elem_t) : TestRes :=
  lookupPairs set e (if set.variantIsV4 then 32 else 128) (histogram set)

/-- Modelled from the spec: hash_add of the hash table core — if an element
with an equal key exists, the request's replace policy (a nonzero flag)
either overwrites it in place or fails with the KeyCollision error; if
absent, the element is inserted. -/
def hash_add (set : IpSet) (e : elem_t) (flag : Nat) : Int × IpSet :=
  if set.elems.any (fun x =>
      match hash_netportnet_data_equal e x with
      | CompareResult.INEQUAL => false
      | _ => true) then
    if flag ≠ 0 then
      (EDPVS_OK, { set with elems := set.elems.map (fun x =>
        match hash_netportnet_data_equal e x with
        | CompareResult.INEQUAL => x
        | _ => e) })
    else (EDPVS_EXIST, set)
  else (EDPVS_OK, { set with elems := set.elems ++ [e] })

/-- Modelled from the spec: hash_del of the hash table core — locate by exact
key equality, remove if present, report not-found if absent. -/
def hash_del (set : IpSet) (e : elem_t) : Int × IpSet :=
  if set.elems.any (fun x =>
      match hash_netportnet_data_equal e x with
      | CompareResult.INEQUAL => false
      | _ => true) then
    (EDPVS_OK, { set with elems := set.elems.filter (fun x =>
      match hash_netportnet_data_equal e x with
      | CompareResult.INEQUAL => true
      | _ => false) })
  else (EDPVS_NOTEXIST, set)

/-- The adt operation selector (IPSET_OP_ADD / IPSET_OP_DEL / IPSET_OP_TEST). -/
inductive IpsetOp where
  | ADD
  | DEL
  | TEST
deriving DecidableEq

/-- set->type->adtfn[op]: dispatch to the hash table core's add/del/test. -/
def adtfn (op : IpsetOp) (set : IpSet) (e : elem_t) (flag : Nat) : Int × IpSet :=
  match op with
  | IpsetOp.ADD => hash_add set e flag
  | IpsetOp.DEL => hash_del set e
  | IpsetOp.TEST => (testResCode (hash_test set e), set)

/-- The element-operation loop body shared by the adt drivers: run adtfn on
each emitted element in order; a nonzero return aborts immediately (C:
`ret = adtfn(set, &e, param->flag); if (ret) return ret;`).  The third
component records the trace of elements actually passed to adtfn. -/
def runElems (op : IpsetOp) (flag : Nat) : List elem_t → IpSet → Int × IpSet × List elem_t
  | [], s => (EDPVS_OK, s, [])
  | e :: rest, s =>
    if (adtfn op s e flag).1 = EDPVS_OK then
      ((runElems op flag rest (adtfn op s e flag).2).1,
       (runElems op flag rest (adtfn op s e flag).2).2.1,
       e :: (runElems op flag rest (adtfn op s e flag).2).2.2)
    else ((adtfn op s e flag).1, (adtfn op s e flag).2, [e])

/-- The state reached by applying a sequence of element operations in order,
keeping each operation's post-state (success or not). -/
def applySeq (op : IpsetOp) (flag : Nat) (elems : List elem_t) (set : IpSet) : IpSet :=
  elems.foldl (fun s e => (adtfn op s e flag).2) set

/-- Modelled from the spec: ip_set_range_to_cidr (pfxlen.h, not in src/) —
the maximal-aligned-block step of the CIDR range decomposer: at `f`, the
largest block (smallest prefix length k, searched from 1 to 32) that is
2^(32-k)-aligned at `f` and contained in [f, t]; returns (last address of
that block, k).  For f > t no block fits; the C helper's behaviour is
undefined there and the model returns the benign (f, 32). -/
def ip_set_range_to_cidr (f t : Nat) : Nat × Nat :=
  match (List.range' 1 32).find? (fun k =>
      decide (f % 2 ^ (32 - k) = 0 ∧ f + 2 ^ (32 - k) - 1 ≤ t)) with
  | some k => (f + 2 ^ (32 - k) - 1, k)
  | none => (f, 32)

/-- The driver's do-while decomposition loop, fuelled: emit the block at f,
then continue from one past its last address while that last address is
below t.  Any 32-bit range decomposes into at most 62 maximal aligned
blocks (each prefix length occurs at most twice), so fuel 65 never runs
out on the ranges the driver produces. -/
def cidrLoopF : Nat → Nat → Nat → List (Nat × Nat)
  | 0, _, _ => []
  | fuel + 1, f, t =>
    if (ip_set_range_to_cidr f t).1 < t then
      (f, (ip_set_range_to_cidr f t).2) :: cidrLoopF fuel ((ip_set_range_to_cidr f t).1 + 1) t
    else [(f, (ip_set_range_to_cidr f t).2)]

/-- The CIDR blocks the adt4 driver iterates over for the range [f, t]. -/
def cidrPairs (f t : Nat) : List (Nat × Nat) := cidrLoopF 65 f t

/-- Modelled from the spec: ip_set_mask_from_to (pfxlen.h, not in src/) —
collapse (from, to) to the CIDR block of prefix length c containing from:
from is masked to c bits and to becomes the block's last address. -/
def ip_set_mask_from_to (f c : Nat) : Nat × Nat :=
  (maskAddr f c 32, maskAddr f c 32 + (2 ^ (32 - c) - 1))

/-- The port loop of both adt drivers, embedded faithfully with its uint16
counter: `for (port = mn; port >= mn && port <= mx; port++)` where the
increment wraps at 65536.  The function returns the list of emitted port
values, or none when the given fuel is exhausted before the loop condition
fails — for mn = 0, mx = 65535 the condition never fails and the C loop
never terminates (every uint16 value satisfies it), so the result is none
for every fuel. -/
def portLoopF : Nat → Nat → Nat → Nat → Option (List Nat)
  | 0, _, _, _ => none
  | fuel + 1, p, mn, mx =>
    if mn ≤ p ∧ p ≤ mx then
      (portLoopF fuel ((p + 1) % 65536) mn mx).map (fun l => p :: l)
    else some []

/-- The port values a driver's port loop emits.  A terminating execution of
the loop performs at most mx + 2 - mn ≤ 65537 iterations, so fuel 65537 is
exact: the result is none precisely when the C loop does not terminate. -/
def portEmit (mn mx : Nat) : Option (List Nat) := portLoopF 65537 mn mn mx

/-- The control-plane request, struct ipset_param: the fields the
netportnet drivers read.  opt_comment is the creation option enabling
comment support. -/
structure ipset_param where
  family : Nat
  opcode : IpsetOp
  cidr : Nat
  cidr2 : Nat
  proto : Nat
  min_addr : Nat
  max_addr : Nat
  min_addr2 : Nat
  max_addr2 : Nat
  min_port : Nat
  max_port : Nat
  comment : String
  nomatch_flag : Bool
  flag : Nat
  opt_comment : Bool
deriving DecidableEq

/-- The probe element adt4 builds for a control-plane TEST (taken before the
comment/nomatch assignments): cidrs and proto from the request, the minimum
addresses and minimum port. -/
def adt4_test_elem (param : ipset_param) : elem_t :=
  { zeroElem with
    cidr1 := param.cidr, cidr2 := param.cidr2, proto := param.proto,
    ip1 := param.min_addr, ip2 := param.min_addr2, port := param.min_port }

/-- The base element adt4 carries into its loops: cidrs and proto from the
request; comment and nomatch only for an ADD request (comment only when the
set supports comments). -/
def adt4_elem0 (set : IpSet) (param : ipset_param) : elem_t :=
  { zeroElem with
    cidr1 := param.cidr, cidr2 := param.cidr2, proto := param.proto,
    comment := if param.opcode = IpsetOp.ADD ∧ set.comment then param.comment else "",
    nomatch_flag := if param.opcode = IpsetOp.ADD ∧ param.nomatch_flag then true else false }

/-- The net1 range adt4 iterates: collapsed by ip_set_mask_from_to when an
explicit prefix is given, the raw (min, max) range otherwise. -/
def adt4_range1 (param : ipset_param) : Nat × Nat :=
  if param.cidr ≠ 0 then ip_set_mask_from_to param.min_addr param.cidr
  else (param.min_addr, param.max_addr)

/-- The net2 range adt4 iterates. -/
def adt4_range2 (param : ipset_param) : Nat × Nat :=
  if param.cidr2 ≠ 0 then ip_set_mask_from_to param.min_addr2 param.cidr2
  else (param.min_addr2, param.max_addr2)

/-- The innermost (port) loop of adt4: one element per port value for a fixed
pair of net1/net2 blocks. -/
def emitPorts (base : elem_t) (b1 b2 : Nat × Nat) : List Nat → List elem_t
  | [] => []
  | p :: ps =>
    { base with ip1 := b1.1, cidr1 := b1.2, ip2 := b2.1, cidr2 := b2.2, port := p } ::
      emitPorts base b1 b2 ps

/-- The middle (net2) loop of adt4: for a fixed net1 block, the whole port
range for each net2 block. -/
def emitNet2 (base : elem_t) (b1 : Nat × Nat) (ports : List Nat) : List (Nat × Nat) → List elem_t
  | [] => []
  | b2 :: bs => emitPorts base b1 b2 ports ++ emitNet2 base b1 ports bs

/-- The outer (net1) loop of adt4: for each net1 block, the entire net2
decomposition is re-enumerated (C: ip2 is reset to ip2_from after the inner
loop). -/
def emitNet1 (base : elem_t) (ports : List Nat) (bs2 : List (Nat × Nat)) : List (Nat × Nat) → List elem_t
  | [] => []
  | b1 :: bs => emitNet2 base b1 ports bs2 ++ emitNet1 base ports bs2 bs

/-- The full element sequence an adt4 Add/Delete emits: the nested cartesian
product of net1 blocks, net2 blocks and port values, in loop order; none
when the port loop does not terminate. -/
def adt4_elems (set : IpSet) (param : ipset_param) : Option (List elem_t) :=
  (portEmit param.min_port param.max_port).map (fun ports =>
    emitNet1 (adt4_elem0 set param) ports
      (cidrPairs (adt4_range2 param).1 (adt4_range2 param).2)
      (cidrPairs (adt4_range1 param).1 (adt4_range1 param).2))

/-- hash_netportnet_adt4: the IPv4 adt driver.  Family mismatch fails with
EDPVS_INVAL before anything else; TEST probes once with the request's
minimum addresses and port; Add/Delete run the element loop over the full
decomposition, aborting at the first nonzero adtfn result.  The result is
(return value, final set, trace of elements passed to adtfn), or none when
the port loop does not terminate. -/
def hash_netportnet_adt4 (op : IpsetOp) (set : IpSet) (param : ipset_param) :
    Option (Int × IpSet × List elem_t) :=
  if set.family ≠ param.family then some (EDPVS_INVAL, set, [])
  else if op = IpsetOp.TEST then
    some (testResCode (hash_test set (adt4_test_elem param)), set, [])
  else
    (adt4_elems set param).map (fun elems => runElems op param.flag elems set)

/-- The element adt6 builds before its TEST branch: both minimum addresses
(unmasked at this point), cidrs and proto from the request. -/
def adt6_base (param : ipset_param) : elem_t :=
  { zeroElem with
    ip1 := param.min_addr, ip2 := param.min_addr2,
    cidr1 := param.cidr, cidr2 := param.cidr2, proto := param.proto }

/-- The single element adt6 uses for Add/Delete: the base element with
comment/nomatch for an ADD request, each address masked by its explicit
prefix when one is given.  No range decomposition happens: max_addr and
max_addr2 are never read. -/
def adt6_elem (set : IpSet) (param : ipset_param) : elem_t :=
  { adt6_base param with
    comment := if param.opcode = IpsetOp.ADD ∧ set.comment then param.comment else "",
    nomatch_flag := if param.opcode = IpsetOp.ADD ∧ param.nomatch_flag then true else false,
    ip1 := if param.cidr ≠ 0 then maskAddr param.min_addr param.cidr 128 else param.min_addr,
    ip2 := if param.cidr2 ≠ 0 then maskAddr param.min_addr2 param.cidr2 128 else param.min_addr2 }

/-- hash_netportnet_adt6: the IPv6 adt driver.  Family mismatch fails with
EDPVS_INVAL; TEST (keyed on param->opcode) probes once with the unmasked
minimum addresses; Add/Delete expand only the port range over the single
masked element.  none when the port loop does not terminate. -/
def hash_netportnet_adt6 (op : IpsetOp) (set : IpSet) (param : ipset_param) :
    Option (Int × IpSet × List elem_t) :=
  if set.family ≠ param.family then some (EDPVS_INVAL, set, [])
  else if param.opcode = IpsetOp.TEST then
    some (testResCode (hash_test set { adt6_base param with port := param.min_port }), set, [])
  else
    (portEmit param.min_port param.max_port).map (fun ports =>
      runElems op param.flag (ports.map (fun p => { adt6_elem set param with port := p })) set)

/-- struct dp_vs_iphdr: the packet descriptor fields the fast path reads. -/
structure dp_vs_iphdr where
  saddr : Nat
  daddr : Nat
  proto : Nat
  len : Nat
deriving DecidableEq

/-- The packet buffer, as its byte sequence. -/
structure rte_mbuf where
  data : List Nat
deriving DecidableEq

/-- struct ipset_test_param: the fast-path probe input. -/
structure ipset_test_param where
  iph : dp_vs_iphdr
  mbuf : rte_mbuf
deriving DecidableEq

/-- Modelled from the spec: mbuf_header_pointer (not in src/) — a
fixed-length byte read at a declared offset past the network header; it
fails (C: returns NULL) when the packet is too short to contain the
requested bytes. -/
def mbuf_header_pointer (m : rte_mbuf) (off len : Nat) : Option (List Nat) :=
  if off + len ≤ m.data.length then some ((m.data.drop off).take len) else none

/-- Read the first two bytes as a 16-bit port value (ports[0]). -/
def be16 : List Nat → Nat
  | b0 :: b1 :: _ => b0 * 256 + b1
  | _ => 0

/-- hash_netportnet_test: the fast-path Test adapter.  It reads
sizeof(uint16_t[2]) = 4 bytes at offset iph->len and builds the probe from
the packet's source/destination addresses and ports[0]; the memset leaves
proto (and the cidrs) zero — iph->proto is never copied.  The C code does
not check mbuf_header_pointer's result and dereferences it unconditionally
(ports[0]); a NULL return is a fault, modelled as none. -/
def hash_netportnet_test (set : IpSet) (p : ipset_test_param) : Option Int :=
  match mbuf_header_pointer p.mbuf p.iph.len 4 with
  | none => none
  | some bs =>
    some (testResCode (hash_test set
      { zeroElem with ip1 := p.iph.saddr, ip2 := p.iph.daddr, port := be16 bs }))

/-- Modelled from the spec: hash_create (ipset_hash.c, not in src/) —
initialize the generic hash storage (empty) and latch the comment-support
flag from the creation request; its return value is ignored by the caller. -/
def hash_create (set : IpSet) (param : ipset_param) : IpSet :=
  { set with comment := param.opt_comment, elems := [] }

/-- hash_netportnet_create: runs hash_create, then fixes net_count = 2, the
element record size, the key-region length, and binds the IPv4 variant
exactly when the requested family is AF_INET and the IPv6 variant for every
other family value; always returns EDPVS_OK. -/
def hash_netportnet_create (set : IpSet) (param : ipset_param) : Int × IpSet :=
  (EDPVS_OK,
   { hash_create set param with
     net_count := 2, dsize := elem_dsize, hash_len := elem_hash_len,
     variantIsV4 := param.family == AF_INET })

/-- A v4-family set bound to the v4 variant, with the fields
hash_netportnet_create fixes, holding the given elements. -/
def mkSet4 (es : List elem_t) : IpSet :=
  { family := 2, comment := false, net_count := 2, dsize := 76, hash_len := 40,
    variantIsV4 := true, elems := es }

/-- A v6-family set bound to the v6 variant. -/
def mkSet6 (es : List elem_t) : IpSet :=
  { family := 10, comment := false, net_count := 2, dsize := 76, hash_len := 40,
    variantIsV4 := false, elems := es }

/-- C1 request: Add net1 1/32, net2 2/32, proto 6, ports 80-81, no replace
flag; its decomposition is the two elements with ports 80 and 81. -/
def c1_param : ipset_param :=
  { family := 2, opcode := IpsetOp.ADD, cidr := 32, cidr2 := 32, proto := 6,
    min_addr := 1, max_addr := 1, min_addr2 := 2, max_addr2 := 2,
    min_port := 80, max_port := 81, comment := "", nomatch_flag := false,
    flag := 0, opt_comment := false }

/-- The first element the C1 request emits (port 80). -/
def c1_e80 : elem_t :=
  { ip1 := 1, cidr1 := 32, ip2 := 2, cidr2 := 32, proto := 6, port := 80,
    comment := "", nomatch_flag := false }

/-- The second element the C1 request emits (port 81). -/
def c1_e81 : elem_t := { c1_e80 with port := 81 }

/-- A pre-existing stored element with the same key as c1_e81 but the
nomatch flag set: inserting c1_e81 without the replace flag collides. -/
def c1_pre : elem_t := { c1_e81 with nomatch_flag := true }

/-- The set before the C1 request. -/
def c1_set0 : IpSet := mkSet4 [c1_pre]

/-- The set after the failing C1 request: c1_e80 was inserted before the
collision on c1_e81 aborted the request. -/
def c1_set1 : IpSet := mkSet4 [c1_pre, c1_e80]

/-- C2 packet: 20 data bytes with iph->len = 20, too short for the 4-byte
port read at offset 20. -/
def c2_tp : ipset_test_param :=
  { iph := { saddr := 1, daddr := 2, proto := 6, len := 20 },
    mbuf := { data := List.replicate 20 0 } }

/-- C3 element: a fully populated key. -/
def c3_e1 : elem_t :=
  { ip1 := 1, cidr1 := 24, ip2 := 2, cidr2 := 24, proto := 6, port := 80,
    comment := "", nomatch_flag := false }

/-- C3 element differing from c3_e1 only in Protocol (17 versus 6). -/
def c3_e2 : elem_t := { c3_e1 with proto := 17 }

/-- C4/C7 empty v4 set. -/
def c4_set : IpSet := mkSet4 []

/-- C4 request, spec scenario 1: Add net1 = 10.0.0.0/24, net2 =
192.168.1.0/24, proto TCP, ports 80-81. -/
def c4_param : ipset_param :=
  { family := 2, opcode := IpsetOp.ADD, cidr := 24, cidr2 := 24, proto := 6,
    min_addr := 167772160, max_addr := 167772160,
    min_addr2 := 3232235776, max_addr2 := 3232235776,
    min_port := 80, max_port := 81, comment := "", nomatch_flag := false,
    flag := 0, opt_comment := false }

/-- The first stored element of scenario 1 (port 80). -/
def c4_e80 : elem_t :=
  { ip1 := 167772160, cidr1 := 24, ip2 := 3232235776, cidr2 := 24, proto := 6,
    port := 80, comment := "", nomatch_flag := false }

/-- The second stored element of scenario 1 (port 81). -/
def c4_e81 : elem_t := { c4_e80 with port := 81 }

/-- The set after scenario 1: exactly two elements. -/
def c4_set2 : IpSet := mkSet4 [c4_e80, c4_e81]

/-- C5 set: one stored TCP (proto 6) element 10.0.0.0/24, 192.168.1.0/24,
port 80. -/
def c5_set : IpSet := mkSet4 [c4_e80]

/-- C5 packet: a TCP packet from 10.0.0.5 to 192.168.1.9 whose ports[0]
bytes encode port 80 — it should match c4_e80. -/
def c5_tp : ipset_test_param :=
  { iph := { saddr := 167772165, daddr := 3232235785, proto := 6, len := 20 },
    mbuf := { data := List.replicate 20 0 ++ [0, 80, 0, 0] } }

/-- C6 empty v6 set. -/
def c6_set : IpSet := mkSet6 []

/-- C6 request: IPv6 Add whose net1 is an address range 100..200 with no
explicit prefix (cidr = 0) and net2 a single /64, one port. -/
def c6_param : ipset_param :=
  { family := 10, opcode := IpsetOp.ADD, cidr := 0, cidr2 := 64, proto := 6,
    min_addr := 100, max_addr := 200,
    min_addr2 := 18446744073709551616, max_addr2 := 18446744073709551616,
    min_port := 80, max_port := 80, comment := "", nomatch_flag := false,
    flag := 0, opt_comment := false }

/-- The single element the C6 request stores: ip1 is the range's minimum
address, the 100..200 range is never decomposed nor rejected. -/
def c6_elem : elem_t :=
  { ip1 := 100, cidr1 := 0, ip2 := 18446744073709551616, cidr2 := 64,
    proto := 6, port := 80, comment := "", nomatch_flag := false }

/-- C7 request: Add with net1 the unaligned range 1..6 (4 CIDR blocks),
net2 a single /32 and 16 port values — a 64-element product. -/
def c7_param : ipset_param :=
  { family := 2, opcode := IpsetOp.ADD, cidr := 0, cidr2 := 32, proto := 6,
    min_addr := 1, max_addr := 6, min_addr2 := 2, max_addr2 := 2,
    min_port := 0, max_port := 15, comment := "", nomatch_flag := false,
    flag := 0, opt_comment := false }

/-- C8 request: Add with the full port range 0..65535 and the replace flag
set, so no element operation ever fails: the C port loop never exits. -/
def c8_param : ipset_param :=
  { family := 2, opcode := IpsetOp.ADD, cidr := 32, cidr2 := 32, proto := 6,
    min_addr := 1, max_addr := 1, min_addr2 := 2, max_addr2 := 2,
    min_port := 0, max_port := 65535, comment := "", nomatch_flag := false,
    flag := 1, opt_comment := false }

/-- C9 request: declared family AF_INET6 against an AF_INET-family set. -/
def c9_param : ipset_param :=
  { family := 10, opcode := IpsetOp.TEST, cidr := 0, cidr2 := 0, proto := 6,
    min_addr := 1, max_addr := 1, min_addr2 := 2, max_addr2 := 2,
    min_port := 80, max_port := 80, comment := "", nomatch_flag := false,
    flag := 0, opt_comment := false }

/-- C2: the claim that hash_netportnet_test is total and yields NOT_FOUND on
a too-short packet is right about the intent but wrong about the code: the
C code never checks mbuf_header_pointer's result and dereferences the NULL
pointer (ports[0]) when the read fails, a fault rather than NOT_FOUND.  On
the 20-byte packet c2_tp, whose port read at offset 20 fails, the embedded
adapter returns none (the fault), not some 0 (the NOT_FOUND code). -/
theorem claim_C2_short_packet_fault :
    hash_netportnet_test (mkSet4 []) c2_tp = none := by decide

/-- C5: the claim that the fast-path probe includes the packet's protocol is
false on the code: hash_netportnet_test never copies iph->proto into the
memset-zeroed probe, so the probe's Protocol is 0.  The TCP packet c5_tp,
which agrees with the stored TCP element c4_e80 on both networks and the
port, yields NOT_FOUND; the same probe with Protocol 6 filled in (last
conjunct) would be ACCEPTed, isolating the missing protocol as the cause. -/
theorem claim_C5_probe_without_protocol :
    hash_netportnet_test c5_set c5_tp = some (testResCode TestRes.NOT_FOUND) ∧
    c5_tp.iph.proto = 6 ∧ c4_e80.proto = 6 ∧
    hash_test c5_set
      { zeroElem with ip1 := c5_tp.iph.saddr, ip2 := c5_tp.iph.daddr,
                      port := 80, proto := 6 } = TestRes.ACCEPT := by decide

/-- C3 counterexample: Protocol is not an input of the IPv4 hash.  c3_e1 and
c3_e2 agree on every key-region field except Protocol — they are distinct
keys (data_equal returns INEQUAL) — yet hash_netportnet_hashkey4 gives them
the same value under the full mask, refuting the claim that the hash's value
depends on the Protocol key field. -/
theorem claim_C3_counterexample :
    hash_netportnet_data_equal c3_e1 c3_e2 = CompareResult.INEQUAL ∧
    c3_e1.proto ≠ c3_e2.proto ∧
    c3_e1.ip1 = c3_e2.ip1 ∧ c3_e1.cidr1 = c3_e2.cidr1 ∧
    c3_e1.ip2 = c3_e2.ip2 ∧ c3_e1.cidr2 = c3_e2.cidr2 ∧
    c3_e1.port = c3_e2.port ∧
    hash_netportnet_hashkey4 c3_e1 40 4294967295 =
      hash_netportnet_hashkey4 c3_e2 40 4294967295 := by decide

/-- C3 amended: data_equal returns a non-INEQUAL result exactly when all
key-region fields (ip1, cidr1, ip2, cidr2, proto, port) agree, ignoring
Comment and Nomatch; when they agree it returns EQUAL_REJECT precisely when
the stored element's nomatch flag is set and EQUAL_ACCEPT otherwise; and the
IPv4 hash's value depends only on the key-region fields ip1, ip2, port,
cidr1, cidr2 — Protocol is excluded from the hash (it participates in
equality only) — so two elements differing only in Nomatch or Comment are
the same key and hash alike. -/
theorem claim_C3_amended :
    (∀ e1 e2 : elem_t,
      hash_netportnet_data_equal e1 e2 ≠ CompareResult.INEQUAL ↔
        keyRegion e1 = keyRegion e2) ∧
    (∀ e1 e2 : elem_t, keyRegion e1 = keyRegion e2 →
      hash_netportnet_data_equal e1 e2 =
        (if e2.nomatch_flag then CompareResult.EQUAL_REJECT
         else CompareResult.EQUAL_ACCEPT)) ∧
    (∀ (e1 e2 : elem_t) (l1 l2 m : Nat),
      e1.ip1 = e2.ip1 → e1.ip2 = e2.ip2 → e1.port = e2.port →
      e1.cidr1 = e2.cidr1 → e1.cidr2 = e2.cidr2 →
      hash_netportnet_hashkey4 e1 l1 m = hash_netportnet_hashkey4 e2 l2 m) := by
  refine ⟨?_, ?_, ?_⟩
  · intro e1 e2
    unfold hash_netportnet_data_equal
    by_cases h : keyRegion e1 = keyRegion e2
    · simp only [h, ne_eq, not_true_eq_false, if_false]
      constructor
      · intro _; trivial
      · intro _
        split <;> simp
    · simp [h]
  · intro e1 e2 h
    unfold hash_netportnet_data_equal
    simp [h]
  · intro e1 e2 l1 l2 m h1 h2 h3 h4 h5
    unfold hash_netportnet_hashkey4
    rw [h1, h2, h3, h4, h5]

/-- C3 amended, witness: the hash equality applied to the two concrete
elements differing only in Protocol and in the unused len argument, and the
equal-key compare applied to c3_e1 against itself. -/
theorem claim_C3_amended_witness :
    hash_netportnet_hashkey4 c3_e1 40 4294967295 =
      hash_netportnet_hashkey4 c3_e2 7 4294967295 ∧
    hash_netportnet_data_equal c3_e1 c3_e1 =
      (if c3_e1.nomatch_flag then CompareResult.EQUAL_REJECT
       else CompareResult.EQUAL_ACCEPT) :=
  ⟨claim_C3_amended.2.2 c3_e1 c3_e2 40 7 4294967295 rfl rfl rfl rfl rfl,
   claim_C3_amended.2.1 c3_e1 c3_e1 rfl⟩

/-- C9: a request whose declared family differs from the set's bound family
fails immediately with EDPVS_INVAL in both hash_netportnet_adt4 and
hash_netportnet_adt6, for every operation, with the set unchanged and no
element operation attempted (empty trace). -/
theorem claim_C9_family_mismatch (op : IpsetOp) (set : IpSet) (param : ipset_param)
    (h : set.family ≠ param.family) :
    hash_netportnet_adt4 op set param = some (EDPVS_INVAL, set, []) ∧
    hash_netportnet_adt6 op set param = some (EDPVS_INVAL, set, []) := by
  constructor
  · unfold hash_netportnet_adt4
    rw [if_pos h]
  · unfold hash_netportnet_adt6
    rw [if_pos h]

/-- C9 witness: a TEST carrying family AF_INET6 against an AF_INET-family
set fails with EDPVS_INVAL in both drivers. -/
theorem claim_C9_family_mismatch_witness :
    hash_netportnet_adt4 IpsetOp.TEST (mkSet4 []) c9_param =
      some (EDPVS_INVAL, mkSet4 [], []) ∧
    hash_netportnet_adt6 IpsetOp.TEST (mkSet4 []) c9_param =
      some (EDPVS_INVAL, mkSet4 [], []) :=
  claim_C9_family_mismatch IpsetOp.TEST (mkSet4 []) c9_param (by decide)

/-- C10: hash_netportnet_create returns EDPVS_OK for every creation
parameter, fixes net_count = 2, the element record size and the key-region
length (the byte prefix up to the Comment field), and binds the IPv4
variant exactly when the requested family is AF_INET — every other family
value, AF_INET6 or not (e.g. 99), silently gets the IPv6 variant. -/
theorem claim_C10_create_unconditional (set : IpSet) (param : ipset_param) :
    (hash_netportnet_create set param).1 = EDPVS_OK ∧
    (hash_netportnet_create set param).2.net_count = 2 ∧
    (hash_netportnet_create set param).2.dsize = elem_dsize ∧
    (hash_netportnet_create set param).2.hash_len = elem_hash_len ∧
    (hash_netportnet_create set param).2.variantIsV4 = (param.family == AF_INET) ∧
    (hash_netportnet_create set { param with family := 99 }).2.variantIsV4 = false :=
  ⟨rfl, rfl, rfl, rfl, rfl, rfl⟩

/-- applySeq unfolds one step at a time. -/
theorem applySeq_cons (op : IpsetOp) (flag : Nat) (e : elem_t) (l : List elem_t) (set : IpSet) :
    applySeq op flag (e :: l) set = applySeq op flag l (adtfn op set e flag).2 := rfl

/-- The trace of attempted element operations is a prefix of the emitted
element sequence. -/
theorem runElems_trace_of (op : IpsetOp) (flag : Nat) :
    ∀ (elems : List elem_t) (set : IpSet),
      (runElems op flag elems set).2.2 <+: elems := by
  intro elems
  induction elems with
  | nil => intro set; exact ⟨[], rfl⟩
  | cons e rest ih =>
    intro set
    simp only [runElems]
    split
    · obtain ⟨t, ht⟩ := ih (adtfn op set e flag).2
      exact ⟨t, by rw [List.cons_append, ht]⟩
    · exact ⟨rest, rfl⟩

/-- The final state is exactly the fold of the attempted trace over the
initial state: element operations performed before a failure are kept. -/
theorem runElems_state_of (op : IpsetOp) (flag : Nat) :
    ∀ (elems : List elem_t) (set : IpSet),
      (runElems op flag elems set).2.1 =
        applySeq op flag (runElems op flag elems set).2.2 set := by
  intro elems
  induction elems with
  | nil => intro set; rfl
  | cons e rest ih =>
    intro set
    simp only [runElems]
    split
    · rw [applySeq_cons]
      exact ih (adtfn op set e flag).2
    · rfl

/-- A run that returns EDPVS_OK attempted the whole element sequence. -/
theorem runElems_ok_of (op : IpsetOp) (flag : Nat) :
    ∀ (elems : List elem_t) (set : IpSet),
      (runElems op flag elems set).1 = EDPVS_OK →
      (runElems op flag elems set).2.2 = elems := by
  intro elems
  induction elems with
  | nil => intro set _; rfl
  | cons e rest ih =>
    intro set
    simp only [runElems]
    split
    · intro hok
      rw [ih (adtfn op set e flag).2 hok]
    · intro hok
      exact absurd hok (by assumption)

/-- C1 counterexample: the failing Add request c1_param against c1_set0 is
not all-or-nothing.  Its first element (port 80) is inserted, then the
second (port 81) collides with the stored differently-flagged element
c1_pre and the request aborts with EDPVS_EXIST — leaving the set changed
(the port-80 element stays). -/
theorem claim_C1_counterexample :
    hash_netportnet_adt4 IpsetOp.ADD c1_set0 c1_param =
      some (EDPVS_EXIST, c1_set1, [c1_e80, c1_e81]) ∧
    c1_set1 ≠ c1_set0 := by decide

/-- C1 amended: an Add or Delete request validates nothing beyond the
family and never sizes the decomposition up front; element operations run
one by one and the request aborts at the first nonzero result without
rollback.  The final state is exactly the fold of the attempted trace (a
prefix of the full decomposition) over the initial state, and only a
request whose operations all succeed processes the full decomposition; a
failing request keeps the effects of the operations before the failure. -/
theorem claim_C1_amended (op : IpsetOp) (set : IpSet) (param : ipset_param)
    (r : Int) (s : IpSet) (tr : List elem_t)
    (hop : op ≠ IpsetOp.TEST)
    (hfam : set.family = param.family)
    (h : hash_netportnet_adt4 op set param = some (r, s, tr)) :
    s = applySeq op param.flag tr set ∧
    (∃ full, adt4_elems set param = some full ∧ tr <+: full) ∧
    (r = EDPVS_OK → adt4_elems set param = some tr) := by
  unfold hash_netportnet_adt4 at h
  rw [if_neg (show ¬set.family ≠ param.family from fun hc => hc hfam),
      if_neg hop] at h
  cases heq : adt4_elems set param with
  | none => rw [heq] at h; exact absurd h (by simp)
  | some elems =>
    rw [heq] at h
    have hrun : runElems op param.flag elems set = (r, s, tr) := Option.some.inj h
    have h1 : r = (runElems op param.flag elems set).1 := by rw [hrun]
    have h2 : s = (runElems op param.flag elems set).2.1 := by rw [hrun]
    have h3 : tr = (runElems op param.flag elems set).2.2 := by rw [hrun]
    refine ⟨?_, ⟨elems, rfl, ?_⟩, ?_⟩
    · rw [h2, h3]; exact runElems_state_of op param.flag elems set
    · rw [h3]; exact runElems_trace_of op param.flag elems set
    · intro hok
      rw [h3, runElems_ok_of op param.flag elems set (by rw [← h1]; exact hok)]

/-- C1 amended, witness: the failing request of the counterexample leaves
exactly the fold of its two attempted operations: the final state is the
fold of the trace over c1_set0. -/
theorem claim_C1_amended_witness :
    c1_set1 = applySeq IpsetOp.ADD c1_param.flag [c1_e80, c1_e81] c1_set0 :=
  (claim_C1_amended IpsetOp.ADD c1_set0 c1_param EDPVS_EXIST c1_set1
    [c1_e80, c1_e81] (by decide) (by decide) (by decide)).1

/-- One unfolding step of the embedded port loop. -/
theorem portLoopF_succ_eq (f p mn mx : Nat) :
    portLoopF (f + 1) p mn mx =
      (if mn ≤ p ∧ p ≤ mx then
        (portLoopF f ((p + 1) % 65536) mn mx).map (fun l => p :: l)
       else some []) := rfl

/-- With mn = 0 and mx = 65535 the loop condition holds for every uint16
counter value, so the port loop never terminates: for every fuel the run is
cut off, never completed. -/
theorem portLoopF_wrap_none :
    ∀ (fuel p : Nat), p ≤ 65535 → portLoopF fuel p 0 65535 = none := by
  intro fuel
  induction fuel with
  | zero => intro p _; rfl
  | succ f ih =>
    intro p hp
    rw [portLoopF_succ_eq, if_pos ⟨Nat.zero_le p, hp⟩,
        ih ((p + 1) % 65536) (by omega)]
    rfl

/-- A terminating execution of the port loop emits exactly the values from
the counter position up to mx: for p in [mn, mx], with enough fuel, and
unless (mn, mx) = (0, 65535), the remaining run emits p, p+1, ..., mx. -/
theorem portLoopF_complete :
    ∀ (fuel p mn mx : Nat), mn ≤ p → p ≤ mx → mx ≤ 65535 →
      (1 ≤ mn ∨ mx ≤ 65534) → mx + 2 - p ≤ fuel →
      portLoopF fuel p mn mx = some (List.range' p (mx + 1 - p)) := by
  intro fuel
  induction fuel with
  | zero => intro p mn mx h1 h2 h3 h4 h5; omega
  | succ f ih =>
    intro p mn mx h1 h2 h3 h4 h5
    rw [portLoopF_succ_eq, if_pos ⟨h1, h2⟩]
    by_cases hpm : p < mx
    · have hmod : (p + 1) % 65536 = p + 1 := Nat.mod_eq_of_lt (by omega)
      have hm : mx + 1 - (p + 1) = mx - p := by omega
      rw [hmod, ih (p + 1) mn mx (by omega) (by omega) h3 h4 (by omega), hm]
      have hn : mx + 1 - p = (mx - p) + 1 := by omega
      rw [hn]
      rfl
    · have hpe : p = mx := by omega
      obtain ⟨f2, rfl⟩ : ∃ f2, f = f2 + 1 := ⟨f - 1, by omega⟩
      have hc : ¬(mn ≤ (p + 1) % 65536 ∧ (p + 1) % 65536 ≤ mx) := by omega
      rw [portLoopF_succ_eq, if_neg hc]
      have hn : mx + 1 - p = 1 := by omega
      rw [hn]
      rfl

/-- The driver's port stage on a valid, non-wrapping range emits exactly
the values mn, ..., mx. -/
theorem portEmit_complete (mn mx : Nat) (h1 : mn ≤ mx) (h2 : mx ≤ 65535)
    (h3 : 1 ≤ mn ∨ mx ≤ 65534) :
    portEmit mn mx = some (List.range' mn (mx + 1 - mn)) :=
  portLoopF_complete 65537 mn mn mx (Nat.le_refl mn) h1 h2 h3 (by omega)

/-- C8: the claim that the expansion loops terminate for every valid request
is wrong about the port loop.  The loop guard `port >= min_port` is the
intended wrap sentinel, but for min_port = 0 every value of the wrapping
uint16 counter satisfies both bounds when max_port = 65535: the first
conjunct shows the embedded loop completes for no fuel at any reachable
counter value, and the second shows the driver on the concrete Add request
c8_param (ports 0..65535, replace flag set so no element operation ever
fails) never terminates. -/
theorem claim_C8_port_loop_nontermination :
    (∀ fuel p : Nat, portLoopF fuel (p % 65536) 0 65535 = none) ∧
    hash_netportnet_adt4 IpsetOp.ADD (mkSet4 []) c8_param = none := by
  constructor
  · intro fuel p
    exact portLoopF_wrap_none fuel (p % 65536) (by omega)
  · have h : portEmit 0 65535 = none := portLoopF_wrap_none 65537 0 (by omega)
    unfold hash_netportnet_adt4 adt4_elems
    rw [if_neg (by decide), if_neg (by decide)]
    have hmn : c8_param.min_port = 0 := rfl
    have hmx : c8_param.max_port = 65535 := rfl
    rw [hmn, hmx, h]
    rfl

/-- The port loop emits one element per port value. -/
theorem emitPorts_length (base : elem_t) (b1 b2 : Nat × Nat) :
    ∀ ps : List Nat, (emitPorts base b1 b2 ps).length = ps.length := by
  intro ps
  induction ps with
  | nil => rfl
  | cons p ps ih => simp [emitPorts, ih]

/-- The net2 loop emits |net2 blocks| * |ports| elements. -/
theorem emitNet2_length (base : elem_t) (b1 : Nat × Nat) (ports : List Nat) :
    ∀ bs2 : List (Nat × Nat),
      (emitNet2 base b1 ports bs2).length = bs2.length * ports.length := by
  intro bs2
  induction bs2 with
  | nil => simp [emitNet2]
  | cons b2 bs ih =>
    simp [emitNet2, emitPorts_length, ih]
    ring

/-- The net1 loop emits |net1 blocks| * (|net2 blocks| * |ports|) elements. -/
theorem emitNet1_length (base : elem_t) (ports : List Nat) (bs2 : List (Nat × Nat)) :
    ∀ bs1 : List (Nat × Nat),
      (emitNet1 base ports bs2 bs1).length = bs1.length * (bs2.length * ports.length) := by
  intro bs1
  induction bs1 with
  | nil => simp [emitNet1]
  | cons b1 bs ih =>
    simp [emitNet1, emitNet2_length, ih]
    ring

/-- A successful (EDPVS_OK) adt4 Add attempted exactly the full decomposition
and its final state is the fold of that trace. -/
theorem adt4_add_ok_trace (set : IpSet) (param : ipset_param) (s : IpSet) (tr : List elem_t)
    (h : hash_netportnet_adt4 IpsetOp.ADD set param = some (EDPVS_OK, s, tr)) :
    adt4_elems set param = some tr ∧ s = applySeq IpsetOp.ADD param.flag tr set := by
  unfold hash_netportnet_adt4 at h
  by_cases hf : set.family ≠ param.family
  · rw [if_pos hf] at h
    have h0 : EDPVS_INVAL = EDPVS_OK := congrArg Prod.fst (Option.some.inj h)
    exact absurd h0 (by decide)
  · rw [if_neg hf, if_neg (by decide : ¬(IpsetOp.ADD = IpsetOp.TEST))] at h
    cases heq : adt4_elems set param with
    | none => rw [heq] at h; exact absurd h (by simp)
    | some elems =>
      rw [heq] at h
      have hrun : runElems IpsetOp.ADD param.flag elems set = (EDPVS_OK, s, tr) :=
        Option.some.inj h
      have hok : (runElems IpsetOp.ADD param.flag elems set).1 = EDPVS_OK := by rw [hrun]
      have htr : (runElems IpsetOp.ADD param.flag elems set).2.2 = elems :=
        runElems_ok_of IpsetOp.ADD param.flag elems set hok
      rw [hrun] at htr
      have htr2 : tr = elems := htr
      constructor
      · rw [htr2]
      · have hst := runElems_state_of IpsetOp.ADD param.flag elems set
        rw [hrun] at hst
        exact hst

/-- C4: an IPv4 Add emits the nested cartesian product: for each net1 block
the entire net2 decomposition is re-enumerated and for each pair every
port value in [min_port, max_port]; a request whose element operations all
succeed therefore attempts exactly |net1 blocks| * (|net2 blocks| * |port
values|) elements.  Concretely, scenario 1 — Add net1 10.0.0.0/24, net2
192.168.1.0/24, proto TCP, ports 80..81 on an empty set — stores exactly 2
elements. -/
theorem claim_C4_cartesian_product :
    (∀ (set : IpSet) (param : ipset_param) (s : IpSet) (tr : List elem_t),
      param.min_port ≤ param.max_port → param.max_port ≤ 65535 →
      (1 ≤ param.min_port ∨ param.max_port ≤ 65534) →
      hash_netportnet_adt4 IpsetOp.ADD set param = some (EDPVS_OK, s, tr) →
      tr.length =
        (cidrPairs (adt4_range1 param).1 (adt4_range1 param).2).length *
        ((cidrPairs (adt4_range2 param).1 (adt4_range2 param).2).length *
          (param.max_port + 1 - param.min_port))) ∧
    hash_netportnet_adt4 IpsetOp.ADD c4_set c4_param =
      some (EDPVS_OK, c4_set2, [c4_e80, c4_e81]) ∧
    c4_set2.elems.length = 2 := by
  refine ⟨?_, by decide, by decide⟩
  intro set param s tr hp1 hp2 hp3 h
  have hfull := (adt4_add_ok_trace set param s tr h).1
  unfold adt4_elems at hfull
  rw [portEmit_complete param.min_port param.max_port hp1 hp2 hp3] at hfull
  have htr : tr = emitNet1 (adt4_elem0 set param)
      (List.range' param.min_port (param.max_port + 1 - param.min_port))
      (cidrPairs (adt4_range2 param).1 (adt4_range2 param).2)
      (cidrPairs (adt4_range1 param).1 (adt4_range1 param).2) :=
    (Option.some.inj hfull).symm
  rw [htr, emitNet1_length, List.length_range']

/-- C4 witness: the product formula applied to scenario 1: two emitted
elements, one net1 block, one net2 block, two port values. -/
theorem claim_C4_cartesian_product_witness :
    ([c4_e80, c4_e81] : List elem_t).length =
      (cidrPairs (adt4_range1 c4_param).1 (adt4_range1 c4_param).2).length *
      ((cidrPairs (adt4_range2 c4_param).1 (adt4_range2 c4_param).2).length *
        (c4_param.max_port + 1 - c4_param.min_port)) :=
  claim_C4_cartesian_product.1 c4_set c4_param c4_set2 [c4_e80, c4_e81]
    (by decide) (by decide) (by decide) (by decide)

/-- C7 counterexample: no per-request cap exists.  The Add request c7_param,
whose decomposition is a 64-element product (4 net1 blocks for the unaligned
range 1..6, 1 net2 block, 16 port values), is driven to completion: the
driver returns EDPVS_OK, attempts all 64 element operations and stores all
64 elements — it neither fails with a capacity error nor truncates. -/
theorem claim_C7_counterexample :
    (hash_netportnet_adt4 IpsetOp.ADD c4_set c7_param).map
      (fun r => (r.1, r.2.1.elems.length, r.2.2.length)) =
      some (EDPVS_OK, 64, 64) := by decide

/-- C7 amended: the adt driver imposes no maximum-elements-per-request cap
and has no CapacityExceeded outcome: a successful Add attempted exactly the
full decomposition product, whatever its size, and its final state is the
fold of all those element operations. -/
theorem claim_C7_amended (set : IpSet) (param : ipset_param) (s : IpSet) (tr : List elem_t)
    (h : hash_netportnet_adt4 IpsetOp.ADD set param = some (EDPVS_OK, s, tr)) :
    adt4_elems set param = some tr ∧ s = applySeq IpsetOp.ADD param.flag tr set :=
  adt4_add_ok_trace set param s tr h

/-- C7 amended, witness: scenario 1's successful Add attempted exactly its
two-element decomposition and its final state is the fold of the two
insertions. -/
theorem claim_C7_amended_witness :
    adt4_elems c4_set c4_param = some [c4_e80, c4_e81] ∧
    c4_set2 = applySeq IpsetOp.ADD c4_param.flag [c4_e80, c4_e81] c4_set :=
  claim_C7_amended c4_set c4_param c4_set2 [c4_e80, c4_e81] (by decide)

/-- C6 counterexample: adt6 does not reject an IPv6 range without an
explicit prefix.  The Add request c6_param carries net1 = range 100..200
with cidr = 0; adt6 accepts it with EDPVS_OK and stores the single element
built from the range's minimum address — the 100..200 range is neither
decomposed nor validated. -/
theorem claim_C6_counterexample :
    hash_netportnet_adt6 IpsetOp.ADD c6_set c6_param =
      some (EDPVS_OK, mkSet6 [c6_elem], [c6_elem]) ∧
    c6_param.min_addr < c6_param.max_addr ∧ c6_param.cidr = 0 := by decide

/-- C6 amended: adt6 performs no multi-block address decomposition — every
element of a successful Add/Delete carries the single element adt6_elem,
whose network fields are the request's minimum addresses masked by their
explicit prefixes when given, with one element per port value in
[min_port, max_port]; and the range upper bounds max_addr/max_addr2 are
never read (second conjunct), so a v6 range request without an explicit
prefix is accepted, not rejected: its upper bound is silently ignored. -/
theorem claim_C6_amended (op : IpsetOp) (set : IpSet) (param : ipset_param)
    (s : IpSet) (tr : List elem_t)
    (hoc : param.opcode ≠ IpsetOp.TEST)
    (hfam : set.family = param.family)
    (hp1 : param.min_port ≤ param.max_port) (hp2 : param.max_port ≤ 65535)
    (hp3 : 1 ≤ param.min_port ∨ param.max_port ≤ 65534)
    (h : hash_netportnet_adt6 op set param = some (EDPVS_OK, s, tr)) :
    tr = (List.range' param.min_port (param.max_port + 1 - param.min_port)).map
        (fun p => { adt6_elem set param with port := p }) ∧
    (∀ x y : Nat,
      hash_netportnet_adt6 op set param =
        hash_netportnet_adt6 op set { param with max_addr := x, max_addr2 := y }) := by
  constructor
  · unfold hash_netportnet_adt6 at h
    rw [if_neg (show ¬set.family ≠ param.family from fun hc => hc hfam), if_neg hoc,
        portEmit_complete param.min_port param.max_port hp1 hp2 hp3] at h
    have hrun : runElems op param.flag
        ((List.range' param.min_port (param.max_port + 1 - param.min_port)).map
          (fun p => { adt6_elem set param with port := p })) set = (EDPVS_OK, s, tr) :=
      Option.some.inj h
    have hok : (runElems op param.flag
        ((List.range' param.min_port (param.max_port + 1 - param.min_port)).map
          (fun p => { adt6_elem set param with port := p })) set).1 = EDPVS_OK := by
      rw [hrun]
    have htr := runElems_ok_of op param.flag _ set hok
    rw [hrun] at htr
    exact htr
  · intro x y
    rfl

/-- C6 amended, witness: the concrete v6 Add of c6_param stores exactly its
one-per-port element list, and replacing the (never-read) range upper
bounds leaves the driver's result unchanged. -/
theorem claim_C6_amended_witness :
    [c6_elem] = (List.range' c6_param.min_port (c6_param.max_port + 1 - c6_param.min_port)).map
        (fun p => { adt6_elem c6_set c6_param with port := p }) ∧
    hash_netportnet_adt6 IpsetOp.ADD c6_set c6_param =
      hash_netportnet_adt6 IpsetOp.ADD c6_set { c6_param with max_addr := 0, max_addr2 := 0 } := by
  have h := claim_C6_amended IpsetOp.ADD c6_set c6_param (mkSet6 [c6_elem]) [c6_elem]
    (by decide) (by decide) (by decide) (by decide) (by decide) (by decide)
  exact ⟨h.1, h.2 0 0⟩
